import Mathlib

/-!
Verification of the monkey language front end and tree-walking runtime.

The repository provides the REPL driver (`repl.Start`), the parser trace
instrumentation (`parser_tracing.go`) and the parser test suite
(`parser_test.go`) as source; the lexer, AST, parser, object model and
evaluator are specified in `spec.md` and are modelled here from that
specification.
-/

namespace Monkey

/-- Modelled from the spec: the token kinds produced by the lexer
(§3 DATA MODEL, Token): literals, operators, delimiters, keywords,
and the END end-marker (plus ILLEGAL for unrecognized characters). -/
inductive TokenKind where
  | ILLEGAL | END
  | IDENT | INT | STRING
  | ASSIGN | PLUS | MINUS | BANG | ASTERISK | SLASH
  | LT | GT | EQ | NOT_EQ
  | COMMA | SEMICOLON | COLON
  | LPAREN | RPAREN | LBRACE | RBRACE | LBRACKET | RBRACKET
  | FUNCTION | LET | TRUE | FALSE | IF | ELSE | RETURN
deriving DecidableEq

/-- Modelled from the spec: `Token: { kind: enum, literal: string }` (§3). -/
structure Token where
  kind : TokenKind
  literal : String
deriving DecidableEq

/-- Display name of a token kind, used in parser error messages
("expected next token to be X, got Y instead"). -/
def TokenKind.name : TokenKind → String
  | .ILLEGAL => "ILLEGAL"
  | .END => "END"
  | .IDENT => "IDENT"
  | .INT => "INT"
  | .STRING => "STRING"
  | .ASSIGN => "="
  | .PLUS => "+"
  | .MINUS => "-"
  | .BANG => "!"
  | .ASTERISK => "*"
  | .SLASH => "/"
  | .LT => "<"
  | .GT => ">"
  | .EQ => "=="
  | .NOT_EQ => "!="
  | .COMMA => ","
  | .SEMICOLON => ";"
  | .COLON => ":"
  | .LPAREN => "("
  | .RPAREN => ")"
  | .LBRACE => "\x7b"
  | .RBRACE => "\x7d"
  | .LBRACKET => "["
  | .RBRACKET => "]"
  | .FUNCTION => "FUNCTION"
  | .LET => "LET"
  | .TRUE => "TRUE"
  | .FALSE => "FALSE"
  | .IF => "IF"
  | .ELSE => "ELSE"
  | .RETURN => "RETURN"

/-- The END token appended at the end of every token stream. -/
def endTok : Token := ⟨.END, ""⟩

/-- Modelled from the spec: keyword lookup for identifier-shaped lexemes
(keywords `let, return, if, else, fn` plus the literals `true`/`false`, §3). -/
def lookupIdent (s : String) : TokenKind :=
  if s = "fn" then .FUNCTION
  else if s = "let" then .LET
  else if s = "true" then .TRUE
  else if s = "false" then .FALSE
  else if s = "if" then .IF
  else if s = "else" then .ELSE
  else if s = "return" then .RETURN
  else .IDENT

/-- Characters allowed in identifiers. -/
def isLetterCh (c : Char) : Bool := c.isAlpha || c = '_'

/-- Splits a character list at the first character failing `p`. -/
def spanP (p : Char → Bool) : List Char → List Char × List Char
  | [] => ([], [])
  | c :: cs =>
    if p c then
      let (t, r) := spanP p cs
      (c :: t, r)
    else ([], c :: cs)

theorem spanP_snd_length_le (p : Char → Bool) (cs : List Char) :
    (spanP p cs).2.length ≤ cs.length := by
  induction cs with
  | nil => simp [spanP]
  | cons c cs ih =>
    by_cases h : p c = true
    · simpa [spanP, h] using Nat.le_succ_of_le ih
    · simp [spanP, h]

/-- Modelled from the spec: the lexer, an external collaborator producing an
ordered, finite token sequence terminated by END (§1 OUT OF SCOPE, §3).
It skips whitespace, recognizes the two-character operators `==` and `!=`,
the single-character operators and delimiters, double-quoted strings,
identifiers/keywords and decimal integers; anything else is ILLEGAL.
The `fuel` argument bounds recursion; each step consumes at least one
character, so `length + 1` fuel suffices. -/
def lexChars : Nat → List Char → List Token
  | 0, _ => [endTok]
  | _ + 1, [] => [endTok]
  | fuel + 1, c :: cs =>
    if c = ' ' ∨ c = '\t' ∨ c = '\n' ∨ c = '\r' then lexChars fuel cs
    else if c = '=' then
      match cs with
      | '=' :: cs2 => ⟨.EQ, "=="⟩ :: lexChars fuel cs2
      | _ => ⟨.ASSIGN, "="⟩ :: lexChars fuel cs
    else if c = '!' then
      match cs with
      | '=' :: cs2 => ⟨.NOT_EQ, "!="⟩ :: lexChars fuel cs2
      | _ => ⟨.BANG, "!"⟩ :: lexChars fuel cs
    else if c = '+' then ⟨.PLUS, "+"⟩ :: lexChars fuel cs
    else if c = '-' then ⟨.MINUS, "-"⟩ :: lexChars fuel cs
    else if c = '*' then ⟨.ASTERISK, "*"⟩ :: lexChars fuel cs
    else if c = '/' then ⟨.SLASH, "/"⟩ :: lexChars fuel cs
    else if c = '<' then ⟨.LT, "<"⟩ :: lexChars fuel cs
    else if c = '>' then ⟨.GT, ">"⟩ :: lexChars fuel cs
    else if c = ',' then ⟨.COMMA, ","⟩ :: lexChars fuel cs
    else if c = ';' then ⟨.SEMICOLON, ";"⟩ :: lexChars fuel cs
    else if c = ':' then ⟨.COLON, ":"⟩ :: lexChars fuel cs
    else if c = '(' then ⟨.LPAREN, "("⟩ :: lexChars fuel cs
    else if c = ')' then ⟨.RPAREN, ")"⟩ :: lexChars fuel cs
    else if c = '\x7b' then ⟨.LBRACE, "\x7b"⟩ :: lexChars fuel cs
    else if c = '\x7d' then ⟨.RBRACE, "\x7d"⟩ :: lexChars fuel cs
    else if c = '[' then ⟨.LBRACKET, "["⟩ :: lexChars fuel cs
    else if c = ']' then ⟨.RBRACKET, "]"⟩ :: lexChars fuel cs
    else if c = '"' then
      let (s, r) := spanP (fun d => d ≠ '"') cs
      ⟨.STRING, String.mk s⟩ :: lexChars fuel (r.drop 1)
    else if isLetterCh c then
      let (s, r) := spanP isLetterCh cs
      let lit := String.mk (c :: s)
      ⟨lookupIdent lit, lit⟩ :: lexChars fuel r
    else if c.isDigit then
      let (s, r) := spanP Char.isDigit cs
      ⟨.INT, String.mk (c :: s)⟩ :: lexChars fuel r
    else ⟨.ILLEGAL, String.mk [c]⟩ :: lexChars fuel cs

/-- Tokenize a source string. -/
def lexString (s : String) : List Token :=
  lexChars (s.length + 1) s.data

mutual
/-- Modelled from the spec: the Expression AST variants (§3 DATA MODEL).
A `BlockStatement` is an ordered list of statements, so blocks appear here
as `List Stmt`; `FunctionLiteral` parameters are identifiers, kept as their
names. -/
inductive Expr where
  | ident (name : String)
  | intLit (value : Int)
  | boolLit (value : Bool)
  | strLit (value : String)
  | prefixExpr (op : String) (right : Expr)
  | infixExpr (left : Expr) (op : String) (right : Expr)
  | ifExpr (cond : Expr) (conseq : List Stmt) (alt : Option (List Stmt))
  | funcLit (params : List String) (body : List Stmt)
  | callExpr (func : Expr) (args : List Expr)
  | arrayLit (elems : List Expr)
  | indexExpr (left : Expr) (index : Expr)
  | hashLit (pairs : List (Expr × Expr))

/-- Modelled from the spec: the Statement AST variants (§3 DATA MODEL). -/
inductive Stmt where
  | letStmt (name : String) (value : Expr)
  | returnStmt (value : Expr)
  | exprStmt (value : Expr)
end

/-- Modelled from the spec: `Program` = ordered list of top-level
statements, the parse result (§3). -/
abbrev Program := List Stmt

/-- Comma-separated join, used by the canonical renderings of call
arguments, array elements and parameter lists. -/
def commaJoin (ss : List String) : String := String.intercalate ", " ss

mutual
/-- Modelled from the spec: canonical string rendering of an Expression
(§6, "fully-parenthesized infix form"): infix as `(l op r)`, prefix as
`(-a)`, call as `f(a1, a2)`, index as `(l[i])`, arrays as `[e1, e2]`,
hashes as `{k: v}`. -/
def renderExpr : Expr → String
  | .ident n => n
  | .intLit v => toString v
  | .boolLit b => if b then "true" else "false"
  | .strLit s => s
  | .prefixExpr op r => "(" ++ op ++ renderExpr r ++ ")"
  | .infixExpr l op r => "(" ++ renderExpr l ++ " " ++ op ++ " " ++ renderExpr r ++ ")"
  | .ifExpr c conseq alt =>
    "if" ++ renderExpr c ++ " " ++ renderStmts conseq ++
      (match alt with
       | some a => "else " ++ renderStmts a
       | none => "")
  | .funcLit ps body => "fn" ++ "(" ++ commaJoin ps ++ ") " ++ renderStmts body
  | .callExpr f args => renderExpr f ++ "(" ++ commaJoin (renderExprList args) ++ ")"
  | .arrayLit es => "[" ++ commaJoin (renderExprList es) ++ "]"
  | .indexExpr l i => "(" ++ renderExpr l ++ "[" ++ renderExpr i ++ "])"
  | .hashLit ps => "\x7b" ++ commaJoin (renderPairList ps) ++ "\x7d"
termination_by structural x => x

def renderExprList : List Expr → List String
  | [] => []
  | e :: es => renderExpr e :: renderExprList es
termination_by structural x => x

def renderPairList : List (Expr × Expr) → List String
  | [] => []
  | (k, v) :: ps => (renderExpr k ++ ":" ++ renderExpr v) :: renderPairList ps
termination_by structural x => x

/-- Modelled from the spec: canonical string rendering of a Statement. -/
def renderStmt : Stmt → String
  | .letStmt n v => "let " ++ n ++ " = " ++ renderExpr v ++ ";"
  | .returnStmt v => "return " ++ renderExpr v ++ ";"
  | .exprStmt e => renderExpr e
termination_by structural x => x

/-- Canonical rendering of a statement list: the concatenation of its
statements' renderings (this is both the Program and the BlockStatement
rendering). -/
def renderStmts : List Stmt → String
  | [] => ""
  | s :: ss => renderStmt s ++ renderStmts ss
termination_by structural x => x
end

namespace Prec

/-- Modelled from the spec: the precedence table, lowest to highest:
LOWEST < EQUALS < COMPARE < SUM < PRODUCT < PREFIX < CALL < INDEX (§4.1). -/
def lowest : Nat := 1

def equals : Nat := 2

def compare : Nat := 3

def sum : Nat := 4

def product : Nat := 5

def prefixOp : Nat := 6

def call : Nat := 7

def index : Nat := 8

end Prec

/-- Modelled from the spec: the infix precedence assigned to a token kind;
token kinds with no infix role get LOWEST (§4.1). -/
def tokenPrec : TokenKind → Nat
  | .EQ => Prec.equals
  | .NOT_EQ => Prec.equals
  | .LT => Prec.compare
  | .GT => Prec.compare
  | .PLUS => Prec.sum
  | .MINUS => Prec.sum
  | .SLASH => Prec.product
  | .ASTERISK => Prec.product
  | .LPAREN => Prec.call
  | .LBRACKET => Prec.index
  | _ => Prec.lowest

/-- Modelled from the spec: the parser state — `current` and `peek`
tokens, the remaining token stream, and the accumulated (not thrown)
syntax error strings (§4.1). -/
structure PState where
  cur : Token
  peek : Token
  rest : List Token
  errors : List String

/-- Modelled from the spec: `advance()` moves `current` and `peek` forward
one token; past the end of the stream the END marker repeats (§4.1). -/
def pAdvance (p : PState) : PState :=
  { cur := p.peek, peek := p.rest.headD endTok, rest := p.rest.tail,
    errors := p.errors }

/-- Record a syntax error. -/
def addError (p : PState) (msg : String) : PState :=
  { p with errors := p.errors ++ [msg] }

/-- Modelled from the spec: each "expect token kind X next" check that
fails produces "expected next token to be X, got Y instead" and does not
advance past the bad token; on success the parser advances (§4.1). -/
def expectPeek (k : TokenKind) (p : PState) : Bool × PState :=
  if p.peek.kind = k then (true, pAdvance p)
  else
    (false,
     addError p ("expected next token to be " ++ k.name ++ ", got " ++
       p.peek.kind.name ++ " instead"))

/-- Initial parser state over a token stream: the first two tokens become
`current` and `peek`. -/
def pNew (toks : List Token) : PState :=
  ⟨toks.headD endTok, (toks.drop 1).headD endTok, toks.drop 2, []⟩

/-- Decimal digit accumulation for integer literals. -/
def digitsToNat : List Char → Nat → Option Nat
  | [], acc => some acc
  | c :: cs, acc =>
    if c.isDigit then digitsToNat cs (acc * 10 + (c.toNat - 48)) else none

/-- Modelled from the spec: conversion of an INT token's literal text to
its int64 value (the book's strconv.ParseInt call); the lexer only emits
digit runs as INT literals, so this handles non-negative decimals. -/
def parseIntLit (s : String) : Option Int :=
  match s.data with
  | [] => none
  | cs => (digitsToNat cs 0).map Int.ofNat

mutual
/-- Modelled from the spec: `parseExpression(minPrecedence)` — invoke the
prefix handler for the current token's kind, then loop while the next
token's infix precedence exceeds `minPrecedence`, invoking the infix
handler with the expression built so far as `left` (§4.1). `fuel` bounds
the recursion depth; `none` stands for the aborted (nil) expression. -/
def parseExpression : Nat → Nat → PState → Option Expr × PState
  | 0, _, p => (none, p)
  | fuel + 1, prec, p =>
    match parsePrefixDispatch fuel p with
    | (none, p') => (none, p')
    | (some left, p') => parseInfixLoop fuel prec left p'
termination_by structural x => x

/-- Modelled from the spec: the prefix handler table keyed by token kind
(identifiers, integer/string/boolean literals, unary `!`/`-`, grouping,
`if`, `fn`, array and hash literals); a missing handler records the error
"no prefix parse function for <kind>" (§4.1). -/
def parsePrefixDispatch : Nat → PState → Option Expr × PState
  | 0, p => (none, p)
  | fuel + 1, p =>
    match p.cur.kind with
    | .IDENT => (some (.ident p.cur.literal), p)
    | .INT =>
      match parseIntLit p.cur.literal with
      | some n => (some (.intLit n), p)
      | none =>
        (none, addError p ("could not parse " ++ p.cur.literal ++ " as integer"))
    | .STRING => (some (.strLit p.cur.literal), p)
    | .TRUE => (some (.boolLit true), p)
    | .FALSE => (some (.boolLit false), p)
    | .BANG => parsePrefixOperator fuel p
    | .MINUS => parsePrefixOperator fuel p
    | .LPAREN => parseGroupedExpression fuel p
    | .IF => parseIfExpression fuel p
    | .FUNCTION => parseFunctionLiteral fuel p
    | .LBRACKET =>
      match parseExpressionList fuel .RBRACKET p with
      | (none, p') => (none, p')
      | (some es, p') => (some (.arrayLit es), p')
    | .LBRACE => parseHashLiteral fuel p
    | k => (none, addError p ("no prefix parse function for " ++ k.name))
termination_by structural x => x

/-- Modelled from the spec: prefix operators `!`/`-` parse their operand
at PREFIX precedence (§4.1). -/
def parsePrefixOperator : Nat → PState → Option Expr × PState
  | 0, p => (none, p)
  | fuel + 1, p =>
    let op := p.cur.literal
    match parseExpression fuel Prec.prefixOp (pAdvance p) with
    | (none, p') => (none, p')
    | (some r, p') => (some (.prefixExpr op r), p')
termination_by structural x => x

/-- Modelled from the spec: grouping `( … )` parses its inner expression
at LOWEST and requires the matching `)` (§4.1). -/
def parseGroupedExpression : Nat → PState → Option Expr × PState
  | 0, p => (none, p)
  | fuel + 1, p =>
    match parseExpression fuel Prec.lowest (pAdvance p) with
    | (none, p') => (none, p')
    | (some e, p') =>
      match expectPeek .RPAREN p' with
      | (true, p2) => (some e, p2)
      | (false, p2) => (none, p2)
termination_by structural x => x

/-- Modelled from the spec:
`if (<expr>) { <block> } [else { <block> }]` (§4.1). -/
def parseIfExpression : Nat → PState → Option Expr × PState
  | 0, p => (none, p)
  | fuel + 1, p =>
    match expectPeek .LPAREN p with
    | (false, p') => (none, p')
    | (true, p') =>
      match parseExpression fuel Prec.lowest (pAdvance p') with
      | (none, p2) => (none, p2)
      | (some cond, p2) =>
        match expectPeek .RPAREN p2 with
        | (false, p3) => (none, p3)
        | (true, p3) =>
          match expectPeek .LBRACE p3 with
          | (false, p4) => (none, p4)
          | (true, p4) =>
            let (conseq, p5) := parseBlockStatement fuel p4
            if p5.peek.kind = .ELSE then
              match expectPeek .LBRACE (pAdvance p5) with
              | (false, p6) => (none, p6)
              | (true, p6) =>
                let (alt, p7) := parseBlockStatement fuel p6
                (some (.ifExpr cond conseq (some alt)), p7)
            else (some (.ifExpr cond conseq none), p5)
termination_by structural x => x

/-- Modelled from the spec: a block `{ <block> }`; statements are parsed
until the matching `}` or the end of input (§4.1). Entered with `current`
on the `{`. -/
def parseBlockStatement : Nat → PState → List Stmt × PState
  | 0, p => ([], p)
  | fuel + 1, p => parseBlockLoop fuel (pAdvance p)
termination_by structural x => x

def parseBlockLoop : Nat → PState → List Stmt × PState
  | 0, p => ([], p)
  | fuel + 1, p =>
    if p.cur.kind = .RBRACE ∨ p.cur.kind = .END then ([], p)
    else
      match parseStatement fuel p with
      | (some s, p') =>
        let (ss, p2) := parseBlockLoop fuel (pAdvance p')
        (s :: ss, p2)
      | (none, p') => parseBlockLoop fuel (pAdvance p')
termination_by structural x => x

/-- Modelled from the spec: `fn (<params>) { <block> }` (§4.1). -/
def parseFunctionLiteral : Nat → PState → Option Expr × PState
  | 0, p => (none, p)
  | fuel + 1, p =>
    match expectPeek .LPAREN p with
    | (false, p') => (none, p')
    | (true, p') =>
      match parseFunctionParameters fuel p' with
      | (none, p2) => (none, p2)
      | (some params, p2) =>
        match expectPeek .LBRACE p2 with
        | (false, p3) => (none, p3)
        | (true, p3) =>
          let (body, p4) := parseBlockStatement fuel p3
          (some (.funcLit params body), p4)
termination_by structural x => x

/-- Modelled from the spec: comma-separated parameter list up to the
closing `)`, erroring if the expected delimiter is missing (§4.1).
Entered with `current` on the `(`. -/
def parseFunctionParameters : Nat → PState → Option (List String) × PState
  | 0, p => (none, p)
  | fuel + 1, p =>
    if p.peek.kind = .RPAREN then (some [], pAdvance p)
    else
      let p' := pAdvance p
      let first := p'.cur.literal
      let (restPs, p2) := parseParamLoop fuel p'
      match expectPeek .RPAREN p2 with
      | (true, p3) => (some (first :: restPs), p3)
      | (false, p3) => (none, p3)

def parseParamLoop : Nat → PState → List String × PState
  | 0, p => ([], p)
  | fuel + 1, p =>
    if p.peek.kind = .COMMA then
      let p' := pAdvance (pAdvance p)
      let (ps, p2) := parseParamLoop fuel p'
      (p'.cur.literal :: ps, p2)
    else ([], p)
termination_by structural x => x

/-- Modelled from the spec: call arguments and array element lists are
comma-separated until the matching closing delimiter, erroring if the
expected delimiter is missing (§4.1). -/
def parseExpressionList : Nat → TokenKind → PState → Option (List Expr) × PState
  | 0, _, p => (none, p)
  | fuel + 1, endk, p =>
    if p.peek.kind = endk then (some [], pAdvance p)
    else
      match parseExpression fuel Prec.lowest (pAdvance p) with
      | (none, p') => (none, p')
      | (some e, p') =>
        match parseExprListLoop fuel p' with
        | (none, p2) => (none, p2)
        | (some es, p2) =>
          match expectPeek endk p2 with
          | (true, p3) => (some (e :: es), p3)
          | (false, p3) => (none, p3)
termination_by structural x => x

def parseExprListLoop : Nat → PState → Option (List Expr) × PState
  | 0, p => (none, p)
  | fuel + 1, p =>
    if p.peek.kind = .COMMA then
      match parseExpression fuel Prec.lowest (pAdvance (pAdvance p)) with
      | (none, p') => (none, p')
      | (some e, p') =>
        match parseExprListLoop fuel p' with
        | (none, p2) => (none, p2)
        | (some es, p2) => (some (e :: es), p2)
    else (some [], p)
termination_by structural x => x

/-- Modelled from the spec: hash literals
`{ <key> : <value>, ... }` (§3, §4.1). Entered with `current` on `{`. -/
def parseHashLiteral : Nat → PState → Option Expr × PState
  | 0, p => (none, p)
  | fuel + 1, p =>
    match parseHashPairsLoop fuel p with
    | (none, p') => (none, p')
    | (some ps, p') =>
      match expectPeek .RBRACE p' with
      | (true, p2) => (some (.hashLit ps), p2)
      | (false, p2) => (none, p2)
termination_by structural x => x

def parseHashPairsLoop : Nat → PState → Option (List (Expr × Expr)) × PState
  | 0, p => (none, p)
  | fuel + 1, p =>
    if p.peek.kind = .RBRACE then (some [], p)
    else
      match parseExpression fuel Prec.lowest (pAdvance p) with
      | (none, p') => (none, p')
      | (some k, p') =>
        match expectPeek .COLON p' with
        | (false, p2) => (none, p2)
        | (true, p2) =>
          match parseExpression fuel Prec.lowest (pAdvance p2) with
          | (none, p3) => (none, p3)
          | (some v, p3) =>
            let (ok, p4) :=
              if p3.peek.kind = .RBRACE then (true, p3)
              else expectPeek .COMMA p3
            if ok then
              match parseHashPairsLoop fuel p4 with
              | (none, p5) => (none, p5)
              | (some ps, p5) => (some ((k, v) :: ps), p5)
            else (none, p4)
termination_by structural x => x

/-- Modelled from the spec: the infix loop of `parseExpression` — while
the next token is not `;` and its infix precedence exceeds the minimum,
advance onto the operator and apply its infix handler; kinds with no
infix handler end the loop (§4.1). -/
def parseInfixLoop : Nat → Nat → Expr → PState → Option Expr × PState
  | 0, _, left, p => (some left, p)
  | fuel + 1, prec, left, p =>
    if p.peek.kind ≠ .SEMICOLON ∧ prec < tokenPrec p.peek.kind then
      match p.peek.kind with
      | .PLUS | .MINUS | .SLASH | .ASTERISK | .EQ | .NOT_EQ | .LT | .GT =>
        match parseInfixOperator fuel left (pAdvance p) with
        | (none, p') => (none, p')
        | (some l2, p') => parseInfixLoop fuel prec l2 p'
      | .LPAREN =>
        match parseCallExpression fuel left (pAdvance p) with
        | (none, p') => (none, p')
        | (some l2, p') => parseInfixLoop fuel prec l2 p'
      | .LBRACKET =>
        match parseIndexExpression fuel left (pAdvance p) with
        | (none, p') => (none, p')
        | (some l2, p') => parseInfixLoop fuel prec l2 p'
      | _ => (some left, p)
    else (some left, p)
termination_by structural x => x

/-- Modelled from the spec: a binary operator parses its right-hand side
by passing the operator's own precedence (not precedence-1) to the
recursive `parseExpression` call, giving left associativity (§4.1).
Entered with `current` on the operator. -/
def parseInfixOperator : Nat → Expr → PState → Option Expr × PState
  | 0, _, p => (none, p)
  | fuel + 1, left, p =>
    let op := p.cur.literal
    let prec := tokenPrec p.cur.kind
    match parseExpression fuel prec (pAdvance p) with
    | (none, p') => (none, p')
    | (some r, p') => (some (.infixExpr left op r), p')
termination_by structural x => x

/-- Modelled from the spec: the CALL infix handler for `(` builds a
CallExpression with the expression built so far as the callee (§4.1).
Entered with `current` on the `(`. -/
def parseCallExpression : Nat → Expr → PState → Option Expr × PState
  | 0, _, p => (none, p)
  | fuel + 1, left, p =>
    match parseExpressionList fuel .RPAREN p with
    | (none, p') => (none, p')
    | (some args, p') => (some (.callExpr left args), p')
termination_by structural x => x

/-- Modelled from the spec: the INDEX infix handler for `[` parses the
index expression at LOWEST and requires the closing `]` (§4.1).
Entered with `current` on the `[`. -/
def parseIndexExpression : Nat → Expr → PState → Option Expr × PState
  | 0, _, p => (none, p)
  | fuel + 1, left, p =>
    match parseExpression fuel Prec.lowest (pAdvance p) with
    | (none, p') => (none, p')
    | (some i, p') =>
      match expectPeek .RBRACKET p' with
      | (true, p2) => (some (.indexExpr left i), p2)
      | (false, p2) => (none, p2)
termination_by structural x => x

/-- Modelled from the spec: statement-level parsing — `let <ident> =
<expr>;`, `return <expr>;`, and bare expression statements; a trailing
`;` is optional and consumed if present (§4.1). -/
def parseStatement : Nat → PState → Option Stmt × PState
  | 0, p => (none, p)
  | fuel + 1, p =>
    match p.cur.kind with
    | .LET => parseLetStatement fuel p
    | .RETURN => parseReturnStatement fuel p
    | _ => parseExpressionStatement fuel p
termination_by structural x => x

def parseLetStatement : Nat → PState → Option Stmt × PState
  | 0, p => (none, p)
  | fuel + 1, p =>
    match expectPeek .IDENT p with
    | (false, p') => (none, p')
    | (true, p') =>
      let nm := p'.cur.literal
      match expectPeek .ASSIGN p' with
      | (false, p2) => (none, p2)
      | (true, p2) =>
        match parseExpression fuel Prec.lowest (pAdvance p2) with
        | (none, p3) => (none, p3)
        | (some v, p3) =>
          let p4 := if p3.peek.kind = .SEMICOLON then pAdvance p3 else p3
          (some (.letStmt nm v), p4)
termination_by structural x => x

def parseReturnStatement : Nat → PState → Option Stmt × PState
  | 0, p => (none, p)
  | fuel + 1, p =>
    match parseExpression fuel Prec.lowest (pAdvance p) with
    | (none, p') => (none, p')
    | (some v, p') =>
      let p2 := if p'.peek.kind = .SEMICOLON then pAdvance p' else p'
      (some (.returnStmt v), p2)
termination_by structural x => x

def parseExpressionStatement : Nat → PState → Option Stmt × PState
  | 0, p => (none, p)
  | fuel + 1, p =>
    match parseExpression fuel Prec.lowest p with
    | (none, p') => (none, p')
    | (some e, p') =>
      let p2 := if p'.peek.kind = .SEMICOLON then pAdvance p' else p'
      (some (.exprStmt e), p2)
termination_by structural x => x

/-- Modelled from the spec: `ParseProgram` — never halts on a malformed
statement; it records an error and advances past the offending statement
so later top-level statements can still be parsed (§4.1). -/
def parseProgram : Nat → PState → List Stmt × PState
  | 0, p => ([], p)
  | fuel + 1, p =>
    if p.cur.kind = .END then ([], p)
    else
      match parseStatement fuel p with
      | (some s, p') =>
        let (ss, p2) := parseProgram fuel (pAdvance p')
        (s :: ss, p2)
      | (none, p') => parseProgram fuel (pAdvance p')
termination_by structural x => x
end

/-- Modelled from the spec: `Parse(tokens) -> (Program, errors)` (§4.1),
composed with the lexer so it runs from source text. The depth fuel is
generous: the parser's recursion depth is bounded by the token count. -/
def parse (s : String) : Program × List String :=
  let toks := lexString s
  let (prog, p) := parseProgram (toks.length * 8 + 32) (pNew toks)
  (prog, p.errors)

/-- Signed 64-bit wrap-around, modelling the spec's "standard signed
64-bit arithmetic" (§4.3) over unbounded `Int`. -/
def wrap64 (n : Int) : Int := (n + 2 ^ 63) % 2 ^ 64 - 2 ^ 63

/-- Modelled from the spec: `HashKey` is derived only from Integer,
Boolean, String (type tag + value) (§3). -/
inductive HashKey where
  | intKey (i : Int)
  | boolKey (b : Bool)
  | strKey (s : String)
deriving DecidableEq

/-- Modelled from the spec: the fixed native builtin table
`len, first, last, rest, push, puts` (§4.3). -/
inductive BuiltinKind where
  | lenB | firstB | lastB | restB | pushB | putsB
deriving DecidableEq

/-- Modelled from the spec: the Object runtime value model — a tagged
union of Integer, Boolean, String, Null, Array, Hash, Function and
Builtin, plus the two internal control-flow signal variants
ReturnSignal and ErrorSignal (§3). A Function's environment is a
reference (index) into the shared environment store. -/
inductive Object where
  | integer (i : Int)
  | boolean (b : Bool)
  | str (s : String)
  | null
  | array (elems : List Object)
  | hash (pairs : List (HashKey × Object × Object))
  | function (params : List String) (body : List Stmt) (env : Nat)
  | builtin (b : BuiltinKind)
  | returnSignal (o : Object)
  | errorSignal (msg : String)

/-- The type tag of an Object in display form, used in runtime error
messages such as "type mismatch: <LeftType> <op> <RightType>" (§4.3). -/
def Object.typeName : Object → String
  | .integer _ => "Integer"
  | .boolean _ => "Boolean"
  | .str _ => "String"
  | .null => "Null"
  | .array _ => "Array"
  | .hash _ => "Hash"
  | .function _ _ _ => "Function"
  | .builtin _ => "Builtin"
  | .returnSignal _ => "ReturnSignal"
  | .errorSignal _ => "ErrorSignal"

/-- Modelled from the spec: the two short-circuit variants that every
evaluation site must propagate unchanged (§4.3). -/
def isSignal : Object → Bool
  | .returnSignal _ => true
  | .errorSignal _ => true
  | _ => false

/-- Modelled from the spec: only `false` and `Null` are falsy; everything
else (including 0) is truthy (§4.3). -/
def truthy : Object → Bool
  | .null => false
  | .boolean b => b
  | _ => true

/-- Modelled from the spec: the HashKey of a hashable Object; `none` for
any other type, which is a runtime error at use sites (§3). -/
def hashKeyOf : Object → Option HashKey
  | .integer i => some (.intKey i)
  | .boolean b => some (.boolKey b)
  | .str s => some (.strKey s)
  | _ => none

/-- Lookup in a hash's pair list by HashKey, yielding the stored
(original key, value) pair. -/
def hashLookup : List (HashKey × Object × Object) → HashKey → Option (Object × Object)
  | [], _ => none
  | (hk, k, v) :: ps, q => if hk = q then some (k, v) else hashLookup ps q

/-- Insert into a hash's pair list: later duplicate keys overwrite
earlier ones (§4.3 HashLiteral). -/
def hashInsert : List (HashKey × Object × Object) → HashKey → Object → Object →
    List (HashKey × Object × Object)
  | [], q, k, v => [(q, k, v)]
  | (hk, k0, v0) :: ps, q, k, v =>
    if hk = q then (hk, k, v) :: ps else (hk, k0, v0) :: hashInsert ps q k v

mutual
/-- Modelled from the spec: the display form ("Inspect") of an Object
(§6): decimal integers, `true`/`false`, raw strings, `null`, bracketed
arrays, braced hashes, a parameter/body rendering for functions, and
`ERROR: <message>` for ErrorSignal. -/
def inspect : Object → String
  | .integer i => toString i
  | .boolean b => if b then "true" else "false"
  | .str s => s
  | .null => "null"
  | .array es => "[" ++ commaJoin (inspectList es) ++ "]"
  | .hash ps => "\x7b" ++ commaJoin (inspectPairs ps) ++ "\x7d"
  | .function ps body _ =>
    "fn(" ++ commaJoin ps ++ ") \x7b\n" ++ renderStmts body ++ "\n\x7d"
  | .builtin _ => "builtin function"
  | .returnSignal o => inspect o
  | .errorSignal m => "ERROR: " ++ m
termination_by structural x => x

def inspectList : List Object → List String
  | [] => []
  | o :: os => inspect o :: inspectList os
termination_by structural x => x

def inspectPairs : List (HashKey × Object × Object) → List String
  | [] => []
  | (_, k, v) :: ps => (inspect k ++ ": " ++ inspect v) :: inspectPairs ps
termination_by structural x => x
end

/-- Modelled from the spec: an Environment maps identifier names to
Objects and optionally references an enclosing Environment (§3). In this
embedding environments live in a shared store and are referenced by
index, so that closures share the mutable scope they captured. -/
structure Frame where
  table : List (String × Object)
  outer : Option Nat

/-- The evaluator's threaded state: the shared environment store and the
output channel written by `puts` (§4.3 builtins). -/
structure EvalState where
  store : List Frame
  output : List String

/-- Binding lookup inside one scope's table. -/
def tableGet : List (String × Object) → String → Option Object
  | [], _ => none
  | (m, w) :: t, n => if m = n then some w else tableGet t n

/-- Create or overwrite a binding in one scope's table. -/
def tableSet : List (String × Object) → String → Object → List (String × Object)
  | [], n, v => [(n, v)]
  | (m, w) :: t, n, v => if m = n then (m, v) :: t else (m, w) :: tableSet t n v

/-- Modelled from the spec: `Get(name)` walks outward through enclosing
scopes until found or exhausted (§4.2). The fuel bounds the outer-chain
walk; an acyclic chain in a store of `k` frames has length at most `k`. -/
def envLookup : Nat → List Frame → Nat → String → Option Object
  | 0, _, _, _ => none
  | fuel + 1, store, ref, n =>
    match store.get? ref with
    | none => none
    | some fr =>
      match tableGet fr.table n with
      | some v => some v
      | none =>
        match fr.outer with
        | none => none
        | some o => envLookup fuel store o n

def envGet (store : List Frame) (ref : Nat) (n : String) : Option Object :=
  envLookup (store.length + 1) store ref n

/-- Modelled from the spec: `Set(name, value)` creates or overwrites a
binding in the current scope only, never in an outer scope (§4.2). -/
def envSet (store : List Frame) (ref : Nat) (n : String) (v : Object) : List Frame :=
  match store.get? ref with
  | none => store
  | some fr => store.set ref { fr with table := tableSet fr.table n v }

/-- Modelled from the spec: the root Environment with empty outer,
`NewEnvironment` (§3), as a one-frame store. -/
def newEnvironmentStore : List Frame := [⟨[], none⟩]

/-- A fresh evaluation state: root environment, no output yet. -/
def freshState : EvalState := ⟨newEnvironmentStore, []⟩

/-- Modelled from the spec: the fixed builtin table consulted when an
identifier is absent from the environment chain (§4.3 Identifier). -/
def builtinFor : String → Option BuiltinKind
  | "len" => some .lenB
  | "first" => some .firstB
  | "last" => some .lastB
  | "rest" => some .restB
  | "push" => some .pushB
  | "puts" => some .putsB
  | _ => none

/-- Modelled from the spec: the builtins' behavior (§4.3 Builtins):
`len` on Array/String, `first`/`last`/`rest` on Array with Null for the
empty (and, for `rest`, singleton) edge cases, `push` returning a new
Array with the original unmodified, and `puts` writing each argument's
display form to the output channel and returning Null. -/
def applyBuiltin (b : BuiltinKind) (args : List Object) (st : EvalState) :
    Object × EvalState :=
  match b with
  | .lenB =>
    match args with
    | [.str s] => (.integer (Int.ofNat s.length), st)
    | [.array es] => (.integer (Int.ofNat es.length), st)
    | [a] => (.errorSignal ("argument to len not supported, got " ++ a.typeName), st)
    | _ => (.errorSignal "wrong number of arguments", st)
  | .firstB =>
    match args with
    | [.array es] => (es.headD .null, st)
    | [a] => (.errorSignal ("argument to first must be Array, got " ++ a.typeName), st)
    | _ => (.errorSignal "wrong number of arguments", st)
  | .lastB =>
    match args with
    | [.array es] => (es.getLastD .null, st)
    | [a] => (.errorSignal ("argument to last must be Array, got " ++ a.typeName), st)
    | _ => (.errorSignal "wrong number of arguments", st)
  | .restB =>
    match args with
    | [.array []] => (.null, st)
    | [.array [_]] => (.null, st)
    | [.array (_ :: t)] => (.array t, st)
    | [a] => (.errorSignal ("argument to rest must be Array, got " ++ a.typeName), st)
    | _ => (.errorSignal "wrong number of arguments", st)
  | .pushB =>
    match args with
    | [.array es, v] => (.array (es ++ [v]), st)
    | [a, _] => (.errorSignal ("argument to push must be Array, got " ++ a.typeName), st)
    | _ => (.errorSignal "wrong number of arguments", st)
  | .putsB => (.null, { st with output := st.output ++ args.map inspect })

/-- Modelled from the spec: prefix operators — `!` is logical negation
under the truthiness rule, `-` requires an Integer operand (§4.3). -/
def evalPrefixOperation (op : String) (v : Object) : Object :=
  if op = "!" then .boolean (!truthy v)
  else if op = "-" then
    match v with
    | .integer i => .integer (wrap64 (-i))
    | _ => .errorSignal ("unknown operator: -" ++ v.typeName)
  else .errorSignal ("unknown operator: " ++ op ++ v.typeName)

/-- Modelled from the spec: infix operators (§4.3 InfixExpression) —
integer arithmetic/comparison with division by zero as a defined
ErrorSignal, string concatenation, boolean equality, "type mismatch" for
differing operand types and "unknown operator" otherwise. -/
def evalInfixOperation (op : String) (l r : Object) : Object :=
  match l, r with
  | .integer a, .integer b =>
    if op = "+" then .integer (wrap64 (a + b))
    else if op = "-" then .integer (wrap64 (a - b))
    else if op = "*" then .integer (wrap64 (a * b))
    else if op = "/" then
      if b = 0 then .errorSignal "division by zero"
      else .integer (wrap64 (Int.tdiv a b))
    else if op = "<" then .boolean (decide (a < b))
    else if op = ">" then .boolean (decide (b < a))
    else if op = "==" then .boolean (decide (a = b))
    else if op = "!=" then .boolean (decide (a ≠ b))
    else .errorSignal ("unknown operator: Integer " ++ op ++ " Integer")
  | .str a, .str b =>
    if op = "+" then .str (a ++ b)
    else .errorSignal ("unknown operator: String " ++ op ++ " String")
  | .boolean a, .boolean b =>
    if op = "==" then .boolean (a == b)
    else if op = "!=" then .boolean (a != b)
    else .errorSignal ("unknown operator: Boolean " ++ op ++ " Boolean")
  | l, r =>
    if l.typeName ≠ r.typeName then
      .errorSignal ("type mismatch: " ++ l.typeName ++ " " ++ op ++ " " ++ r.typeName)
    else
      .errorSignal ("unknown operator: " ++ l.typeName ++ " " ++ op ++ " " ++ r.typeName)

/-- Modelled from the spec: the IndexExpression rules (§4.3) — Array with
Integer index yields Null out of range; Hash with hashable key yields the
value or Null when missing, and "unusable as hash key" for non-hashable
key types; any other indexed type is "index operator not supported". -/
def evalIndexOperation (l i : Object) : Object :=
  match l, i with
  | .array es, .integer idx =>
    if idx < 0 ∨ (Int.ofNat es.length) ≤ idx then .null
    else es.getD idx.toNat .null
  | .hash ps, k =>
    match hashKeyOf k with
    | some hk =>
      match hashLookup ps hk with
      | some (_, v) => v
      | none => .null
    | none => .errorSignal ("unusable as hash key: " ++ k.typeName)
  | l, _ => .errorSignal ("index operator not supported: " ++ l.typeName)

/-- Modelled from the spec: the only place a ReturnSignal is consumed —
a function call unwraps it to its inner value (§4.3 CallExpression). -/
def unwrapReturn : Object → Object
  | .returnSignal o => o
  | v => v

mutual
/-- Modelled from the spec: `Eval(node, env) -> Object` for Expression
nodes (§4.3), with a fuel bound standing in for the host call stack
(§5: unbounded recursion exhausts resources rather than being capped by
the language). Every sub-evaluation checks for the two signal variants
and propagates them unchanged. -/
def evalExpr : Nat → Expr → Nat → EvalState → Object × EvalState
  | 0, _, _, st => (.errorSignal "evaluation fuel exhausted", st)
  | fuel + 1, e, env, st =>
    match e with
    | .ident n =>
      match envGet st.store env n with
      | some v => (v, st)
      | none =>
        match builtinFor n with
        | some b => (.builtin b, st)
        | none => (.errorSignal ("identifier not found: " ++ n), st)
    | .intLit v => (.integer v, st)
    | .boolLit b => (.boolean b, st)
    | .strLit s => (.str s, st)
    | .prefixExpr op r =>
      let (rv, st1) := evalExpr fuel r env st
      if isSignal rv then (rv, st1) else (evalPrefixOperation op rv, st1)
    | .infixExpr l op r =>
      let (lv, st1) := evalExpr fuel l env st
      if isSignal lv then (lv, st1)
      else
        let (rv, st2) := evalExpr fuel r env st1
        if isSignal rv then (rv, st2) else (evalInfixOperation op lv rv, st2)
    | .ifExpr c conseq alt =>
      let (cv, st1) := evalExpr fuel c env st
      if isSignal cv then (cv, st1)
      else if truthy cv then evalBlock fuel conseq env st1
      else
        match alt with
        | some a => evalBlock fuel a env st1
        | none => (.null, st1)
    | .funcLit ps body => (.function ps body env, st)
    | .callExpr f args =>
      let (fv, st1) := evalExpr fuel f env st
      if isSignal fv then (fv, st1)
      else
        match evalExprList fuel args env st1 with
        | (.inl sig, st2) => (sig, st2)
        | (.inr vs, st2) => applyFunction fuel fv vs st2
    | .arrayLit es =>
      match evalExprList fuel es env st with
      | (.inl sig, st1) => (sig, st1)
      | (.inr vs, st1) => (.array vs, st1)
    | .indexExpr l i =>
      let (lv, st1) := evalExpr fuel l env st
      if isSignal lv then (lv, st1)
      else
        let (iv, st2) := evalExpr fuel i env st1
        if isSignal iv then (iv, st2) else (evalIndexOperation lv iv, st2)
    | .hashLit ps =>
      match evalHashPairs fuel ps env [] st with
      | (.inl sig, st1) => (sig, st1)
      | (.inr hps, st1) => (.hash hps, st1)
termination_by structural x => x

/-- Modelled from the spec: argument/element lists evaluate left to
right, propagating the first signal encountered and short-circuiting the
rest (§4.3 CallExpression, ArrayLiteral). -/
def evalExprList : Nat → List Expr → Nat → EvalState → (Object ⊕ List Object) × EvalState
  | 0, _, _, st => (.inl (.errorSignal "evaluation fuel exhausted"), st)
  | _ + 1, [], _, st => (.inr [], st)
  | fuel + 1, e :: es, env, st =>
    let (v, st1) := evalExpr fuel e env st
    if isSignal v then (.inl v, st1)
    else
      match evalExprList fuel es env st1 with
      | (.inl sig, st2) => (.inl sig, st2)
      | (.inr vs, st2) => (.inr (v :: vs), st2)
termination_by structural x => x

/-- Modelled from the spec: hash literal evaluation — each key then its
value, propagating signals; keys must be hashable; later duplicate keys
overwrite earlier ones (§4.3 HashLiteral). -/
def evalHashPairs : Nat → List (Expr × Expr) → Nat →
    List (HashKey × Object × Object) → EvalState →
    (Object ⊕ List (HashKey × Object × Object)) × EvalState
  | 0, _, _, _, st => (.inl (.errorSignal "evaluation fuel exhausted"), st)
  | _ + 1, [], _, acc, st => (.inr acc, st)
  | fuel + 1, (ke, ve) :: ps, env, acc, st =>
    let (kv, st1) := evalExpr fuel ke env st
    if isSignal kv then (.inl kv, st1)
    else
      match hashKeyOf kv with
      | none => (.inl (.errorSignal ("unusable as hash key: " ++ kv.typeName)), st1)
      | some hk =>
        let (vv, st2) := evalExpr fuel ve env st1
        if isSignal vv then (.inl vv, st2)
        else evalHashPairs fuel ps env (hashInsert acc hk kv vv) st2
termination_by structural x => x

/-- Modelled from the spec: calling a Function builds a new Environment
enclosed by the function's captured (definition-time) environment, binds
parameters positionally (arity mismatch is an ErrorSignal), evaluates the
body there and unwraps a ReturnSignal result; Builtins are invoked
directly; calling anything else is "not a function" (§4.3). -/
def applyFunction : Nat → Object → List Object → EvalState → Object × EvalState
  | 0, _, _, st => (.errorSignal "evaluation fuel exhausted", st)
  | fuel + 1, f, args, st =>
    match f with
    | .function ps body fenv =>
      if ps.length ≠ args.length then (.errorSignal "wrong number of arguments", st)
      else
        let newRef := st.store.length
        let st1 : EvalState :=
          { st with store := st.store ++ [⟨ps.zip args, some fenv⟩] }
        let (v, st2) := evalBlock fuel body newRef st1
        (unwrapReturn v, st2)
    | .builtin b => applyBuiltin b args st
    | f => (.errorSignal ("not a function: " ++ f.typeName), st)
termination_by structural x => x

/-- Modelled from the spec: `Eval` for Statement nodes (§4.3) — let binds
in the current scope after evaluating its value, return wraps its value
in a ReturnSignal, and an expression statement is its expression. -/
def evalStmt : Nat → Stmt → Nat → EvalState → Object × EvalState
  | 0, _, _, st => (.errorSignal "evaluation fuel exhausted", st)
  | fuel + 1, s, env, st =>
    match s with
    | .letStmt n v =>
      let (val, st1) := evalExpr fuel v env st
      if isSignal val then (val, st1)
      else (.null, { st1 with store := envSet st1.store env n val })
    | .returnStmt v =>
      let (val, st1) := evalExpr fuel v env st
      if isSignal val then (val, st1) else (.returnSignal val, st1)
    | .exprStmt e => evalExpr fuel e env st
termination_by structural x => x

/-- Modelled from the spec: Program / BlockStatement — evaluate
statements in order; a ReturnSignal or ErrorSignal result stops the block
and is its result; otherwise the result is the last statement's result,
or Null for an empty block (§4.3). -/
def evalBlock : Nat → List Stmt → Nat → EvalState → Object × EvalState
  | 0, _, _, st => (.errorSignal "evaluation fuel exhausted", st)
  | _ + 1, [], _, st => (.null, st)
  | fuel + 1, s :: ss, env, st =>
    let (v, st1) := evalStmt fuel s env st
    if isSignal v then (v, st1)
    else
      match ss with
      | [] => (v, st1)
      | _ => evalBlock fuel ss env st1
termination_by structural x => x
end

/-- Modelled from the spec: evaluating a Program is the ordered
statement-list rule of §4.3. -/
def evalProgram (fuel : Nat) (prog : Program) (env : Nat) (st : EvalState) :
    Object × EvalState :=
  evalBlock fuel prog env st

/-! ## The REPL driver (`repl.Start`) -/

/-- The MONKEY_FACE banner printed before parser errors (repl source). -/
def MONKEY_FACE : String :=
  "            __,__\n" ++
  "   .--.  .-\"     \"-.  .--.\n" ++
  "  / .. \\/  .-. .-.  \\/ .. \\\n" ++
  " | |  \x27|  /   Y   \\  |\x27  | |\n" ++
  " | \\   \\  \\ 0 | 0 /  /   / |\n" ++
  "  \\ \x27- ,\\.-\"\"\"\"\"\"\"-./, -\x27 /\n" ++
  "   \x27\x27-\x27 /_   ^ ^   _\\ \x27-\x27\x27\n" ++
  "       |  \\._   _./  |\n" ++
  "       \\   \\ \x27~\x27 /   /\n" ++
  "        \x27._ \x27-=-\x27 _.\x27\n" ++
  "           \x27-----\x27\n"

/-- The writes `printParserErrors` performs on the output writer: the
banner, two headers, and one tab-indented line per error message. -/
def printParserErrors (errors : List String) : List String :=
  [MONKEY_FACE, "Woops! We ran into some monkey business here!",
   " parser errors:"] ++ errors.map (fun m => "\t" ++ m)

/-- One iteration of `Start`'s read loop, parameterized by the evaluator
it drives: parse the line; when the parser's error list is non-empty,
report the errors and continue (the returned Program never reaches the
evaluator and the session state is untouched); otherwise evaluate against
the session environment and print the result's display form. -/
def replStepWith (ev : Program → Nat → EvalState → Object × EvalState)
    (env : Nat) (st : EvalState) (outp : List String) (line : String) :
    Nat × EvalState × List String :=
  let (program, errs) := parse line
  if errs ≠ [] then (env, st, outp ++ printParserErrors errs)
  else
    let (v, st') := ev program env st
    (env, st', outp ++ [inspect v, "\n"])

/-- The evaluation fuel one REPL line gets in this embedding. -/
def replFuel : Nat := 1000

/-- One iteration of `Start`'s read loop driving the real evaluator. -/
def replStep (env : Nat) (st : EvalState) (outp : List String) (line : String) :
    Nat × EvalState × List String :=
  replStepWith (evalProgram replFuel) env st outp line

/-- `Start`: create one Environment before the read loop, then fold the
loop body over the input lines, threading that same session environment
(and the output writer) through every iteration. -/
def replRun (lines : List String) : Nat × EvalState × List String :=
  lines.foldl (fun acc line => replStep acc.1 acc.2.1 acc.2.2 line)
    (0, freshState, [])

/-! ## The parser trace instrumentation (`parser_tracing.go`) -/

/-- `traceIdentPlaceholder`: one tab per indentation level. -/
def traceIdentPlaceholder : String := "\t"

/-- The repetition count `strings.Repeat` receives inside `identLevel()`:
`traceLevel - 1`. In Go, `strings.Repeat` panics when this is negative. -/
def identLevelCount (traceLevel : Int) : Int := traceLevel - 1

/-- `identLevel()`: the indentation string, `traceIdentPlaceholder`
repeated `traceLevel - 1` times (meaningful only when that count is
non-negative). -/
def identLevel (traceLevel : Int) : String :=
  String.join (List.replicate (identLevelCount traceLevel).toNat traceIdentPlaceholder)

/-- `incIdent()`: increment the global `traceLevel` by exactly one. -/
def incIdent (traceLevel : Int) : Int := traceLevel + 1

/-- `decIdent()`: decrement the global `traceLevel` by exactly one. -/
def decIdent (traceLevel : Int) : Int := traceLevel - 1

/-- The observable events of the trace instrumentation: a `trace()` call
(`beginEv`) and the invocation of the `untrace` closure it returned
(`endEv`). -/
inductive TEvent where
  | beginEv
  | endEv
deriving DecidableEq

/-- One trace event acting on the state (traceLevel, levels at which
`tracePrint` — and hence `identLevel` — has run so far): `trace()` calls
`incIdent` and then prints BEGIN at the new level; the `untrace` closure
prints END at the current level and then calls `decIdent`. -/
def traceStep : Int × List Int → TEvent → Int × List Int
  | (lvl, ps), .beginEv => (incIdent lvl, ps ++ [incIdent lvl])
  | (lvl, ps), .endEv => (decIdent lvl, ps ++ [lvl])

/-- Run a sequence of trace events from a starting traceLevel, collecting
the traceLevel current at each print. -/
def runTraceEvents (evs : List TEvent) (lvl : Int) : Int × List Int :=
  evs.foldl traceStep (lvl, [])

/-- Well-nested (balanced) trace event sequences: every `trace()` is
matched by exactly one later `untrace` invocation, properly nested, as
produced by the `defer`-style discipline `untrace(trace(...))` of the
parser's instrumented methods. -/
inductive Balanced : List TEvent → Prop
  | nil : Balanced []
  | wrap {l : List TEvent} : Balanced l → Balanced ([.beginEv] ++ l ++ [.endEv])
  | append {l₁ l₂ : List TEvent} : Balanced l₁ → Balanced l₂ → Balanced (l₁ ++ l₂)

/-! ## The operator precedence test table (`parser_test.go`,
`TestOperatorPrecedenceParsing`) -/

/-- The (input, expected canonical rendering) pairs of
`TestOperatorPrecedenceParsing`. -/
def precedenceTests : List (String × String) :=
  [("-a * b", "((-a) * b)"),
   ("!-a", "(!(-a))"),
   ("a + b + c", "((a + b) + c)"),
   ("a + b - c", "((a + b) - c)"),
   ("a * b * c", "((a * b) * c)"),
   ("a * b / c", "((a * b) / c)"),
   ("a + b / c", "(a + (b / c))"),
   ("a + b * c + d / e - f", "(((a + (b * c)) + (d / e)) - f)"),
   ("3 + 4; -5 * 5", "(3 + 4)((-5) * 5)"),
   ("5 > 4 == 3 < 4", "((5 > 4) == (3 < 4))"),
   ("5 < 4 != 3 > 4", "((5 < 4) != (3 > 4))"),
   ("3 + 4 * 5 == 3 * 1 + 4 * 5", "((3 + (4 * 5)) == ((3 * 1) + (4 * 5)))"),
   ("true", "true"),
   ("false", "false"),
   ("3 > 5 == false", "((3 > 5) == false)"),
   ("3 < 5 == true", "((3 < 5) == true)"),
   ("1 + (2 + 3) + 4", "((1 + (2 + 3)) + 4)"),
   ("(5 + 5) * 2", "((5 + 5) * 2)"),
   ("2 / (5 + 5)", "(2 / (5 + 5))"),
   ("(5 + 5) * 2 * (5 + 5)", "(((5 + 5) * 2) * (5 + 5))"),
   ("-(5 + 5)", "(-(5 + 5))"),
   ("!(true == true)", "(!(true == true))"),
   ("a + add(b * c) + d", "((a + add((b * c))) + d)"),
   ("add(a, b, 1, 2 * 3, 4 + 5, add(6, 7 * 8))",
    "add(a, b, 1, (2 * 3), (4 + 5), add(6, (7 * 8)))"),
   ("add(a + b + c * d / f + g)", "add((((a + b) + ((c * d) / f)) + g))"),
   ("a * [1, 2, 3, 4][b * c] * d", "((a * ([1, 2, 3, 4][(b * c)])) * d)"),
   ("add(a * b[2], b[1], 2 * [1, 2][1])",
    "add((a * (b[2])), (b[1]), (2 * ([1, 2][1])))")]

/-- Whether one precedence test pair passes: the parse reports no errors
and the program's canonical rendering equals the expected string. -/
def precedencePairOk (t : String × String) : Bool :=
  let (prog, errs) := parse t.1
  errs.isEmpty && (renderStmts prog == t.2)

/-- The closure test program of §8: `newAdder` returns a function that
must read `x` from its definition-time environment. -/
def newAdderSrc : String :=
  "let newAdder = fn(x) \x7b fn(y) \x7b x + y \x7d \x7d; " ++
  "let addTwo = newAdder(2); addTwo(3);"

/-! ## Claims -/

/-- Claim C1: for every valid precedence test input of
`TestOperatorPrecedenceParsing`, the parse reports no errors and the
canonical fully-parenthesized rendering of the parsed program equals the
expected parenthesization — all binary operators group left-associatively,
prefix binds tighter than product, and index binds tighter than
multiplication. -/
theorem operatorPrecedenceParsing : precedenceTests.all precedencePairOk = true := by
  decide

/-- Claim C8: parsing "let x = 5;" yields a Program of exactly one
LetStatement binding the identifier `x` to IntegerLiteral 5, with an
empty parser error list. -/
theorem letStatementParsing :
    parse "let x = 5;" = ([.letStmt "x" (.intLit 5)], []) := by
  rfl

/-- Claim C3: an infix `/` whose operands are both Integer and whose
right operand is zero evaluates to an ErrorSignal — division by zero is
a defined error condition, a value, not a fatal abort: the object-level
operation yields the error, and full expression evaluation returns it as
an ordinary result with the state untouched. -/
theorem divisionByZeroIsErrorSignal :
    (∀ a b : Int, b = 0 →
      evalInfixOperation "/" (.integer a) (.integer b) =
        .errorSignal "division by zero") ∧
    (∀ (fuel : Nat) (a : Int) (env : Nat) (st : EvalState), 2 ≤ fuel →
      evalExpr fuel (.infixExpr (.intLit a) "/" (.intLit 0)) env st =
        (.errorSignal "division by zero", st)) := by
  constructor
  · intro a b hb
    subst hb
    rfl
  · intro fuel a env st hfuel
    obtain ⟨k, rfl⟩ : ∃ k, fuel = k + 1 + 1 := ⟨fuel - 2, by omega⟩
    rfl

/-- Witness for C3 at concrete inputs. -/
theorem divisionByZeroIsErrorSignal_witness :
    evalInfixOperation "/" (.integer 7) (.integer 0) =
      .errorSignal "division by zero" ∧
    evalExpr 5 (.infixExpr (.intLit 7) "/" (.intLit 0)) 0 freshState =
      (.errorSignal "division by zero", freshState) :=
  ⟨divisionByZeroIsErrorSignal.1 7 0 rfl,
   divisionByZeroIsErrorSignal.2 5 7 0 freshState (by decide)⟩

/-- Claim C4: a Function object's environment is the one current at its
definition site, not the call site: the spec's closure program parses
cleanly and evaluates to Integer 5 — `addTwo` reads `x = 2` from the
environment captured when `fn(y) { x + y }` was created inside
`newAdder`, an environment no longer active at the call site. -/
theorem closureCapturesDefinitionEnvironment :
    (parse newAdderSrc).2 = [] ∧
    (evalProgram 100 (parse newAdderSrc).1 0 freshState).1 = .integer 5 :=
  ⟨rfl, rfl⟩

/-- Claim C5: indexing an Array with an out-of-range Integer (negative
or ≥ length) and indexing a Hash with a hashable but absent key both
yield Null, never an ErrorSignal; indexing a Hash with a non-hashable
key type yields ErrorSignal("unusable as hash key: <Type>"). -/
theorem indexOutOfRangeAndMissingKey :
    (∀ (es : List Object) (i : Int), i < 0 ∨ Int.ofNat es.length ≤ i →
      evalIndexOperation (.array es) (.integer i) = .null) ∧
    (∀ (ps : List (HashKey × Object × Object)) (k : Object) (hk : HashKey),
      hashKeyOf k = some hk → hashLookup ps hk = none →
      evalIndexOperation (.hash ps) k = .null) ∧
    (∀ (ps : List (HashKey × Object × Object)) (k : Object),
      hashKeyOf k = none →
      evalIndexOperation (.hash ps) k =
        .errorSignal ("unusable as hash key: " ++ k.typeName)) := by
  refine ⟨?_, ?_, ?_⟩
  · intro es i h
    simp only [evalIndexOperation]
    rw [if_pos h]
  · intro ps k hk h1 h2
    simp [evalIndexOperation, h1, h2]
  · intro ps k h
    simp [evalIndexOperation, h]

/-- Witness for C5 at concrete inputs: `[1, 2][5]`, a missing string key
on an empty hash, and a Function used as a hash key. -/
theorem indexOutOfRangeAndMissingKey_witness :
    evalIndexOperation (.array [.integer 1, .integer 2]) (.integer 5) = .null ∧
    evalIndexOperation (.hash []) (.str "a") = .null ∧
    evalIndexOperation (.hash []) (.function [] [] 0) =
      .errorSignal ("unusable as hash key: " ++ (Object.function [] [] 0).typeName) :=
  ⟨indexOutOfRangeAndMissingKey.1 [.integer 1, .integer 2] 5 (Or.inr (by decide)),
   indexOutOfRangeAndMissingKey.2.1 [] (.str "a") (.strKey "a") rfl rfl,
   indexOutOfRangeAndMissingKey.2.2 [] (.function [] [] 0) rfl⟩

/-- Claim C6: `push(a, v)` returns a new Array equal to `a` with `v`
appended, for every array and value; and observably the original array
value is unaffected — after `let a = [1, 2]; push(a, 3);`, reading `a`
still yields `[1, 2]` while the push result was `[1, 2, 3]`. -/
theorem pushReturnsNewArray :
    (∀ (es : List Object) (v : Object) (st : EvalState),
      applyBuiltin .pushB [.array es, v] st = (.array (es ++ [v]), st)) ∧
    (evalProgram 100 (parse "push([1, 2], 3)").1 0 freshState).1 =
      .array [.integer 1, .integer 2, .integer 3] ∧
    (evalProgram 100 (parse "let a = [1, 2]; push(a, 3); a;").1 0 freshState).1 =
      .array [.integer 1, .integer 2] :=
  ⟨fun _ _ _ => rfl, rfl, rfl⟩

/-- A REPL iteration on a line with parser errors reports the errors and
leaves the session state untouched, whatever evaluator drives it. -/
theorem replStepWith_parseError
    (ev : Program → Nat → EvalState → Object × EvalState)
    (env : Nat) (st : EvalState) (outp : List String) (line : String)
    (h : (parse line).2 ≠ []) :
    replStepWith ev env st outp line =
      (env, st, outp ++ printParserErrors (parse line).2) := by
  unfold replStepWith
  rcases hp : parse line with ⟨prog, errs⟩
  rw [hp] at h
  simp only [hp]
  rw [if_pos h]

/-- Claim C2: a line whose parse produces a non-empty error list never
reaches the evaluator — the REPL iteration's result is exactly the
parser-error report with the session state unchanged, and it is the same
whatever evaluator function the loop body drives. -/
theorem parserErrorsStopEvaluation :
    ∀ (ev₁ ev₂ : Program → Nat → EvalState → Object × EvalState)
      (env : Nat) (st : EvalState) (outp : List String) (line : String),
      (parse line).2 ≠ [] →
      replStepWith ev₁ env st outp line =
        (env, st, outp ++ printParserErrors (parse line).2) ∧
      replStepWith ev₁ env st outp line = replStepWith ev₂ env st outp line := by
  intro ev₁ ev₂ env st outp line h
  refine ⟨replStepWith_parseError ev₁ env st outp line h, ?_⟩
  rw [replStepWith_parseError ev₁ env st outp line h,
    replStepWith_parseError ev₂ env st outp line h]

/-- Witness for C2: the line "let x 5;" parses with an error, so the
iteration reports it identically under the real evaluator and under a
junk evaluator, leaving the state unchanged. -/
theorem parserErrorsStopEvaluation_witness :
    replStepWith (evalProgram replFuel) 0 freshState [] "let x 5;" =
      (0, freshState, [] ++ printParserErrors (parse "let x 5;").2) ∧
    replStepWith (evalProgram replFuel) 0 freshState [] "let x 5;" =
      replStepWith (fun _ _ st => (.null, st)) 0 freshState [] "let x 5;" :=
  parserErrorsStopEvaluation (evalProgram replFuel) (fun _ _ st => (.null, st))
    0 freshState [] "let x 5;" (by decide)

/-- A REPL iteration returns the same environment reference it was
given, in both the parser-error and the evaluation branch. -/
theorem replStep_fst (env : Nat) (st : EvalState) (outp : List String)
    (line : String) : (replStep env st outp line).1 = env := by
  unfold replStep replStepWith
  rcases parse line with ⟨prog, errs⟩
  by_cases h : errs ≠ [] <;> simp [h]

/-- Folding the REPL loop body never changes the environment reference
component of the accumulator. -/
theorem replFold_fst (lines : List String) (acc : Nat × EvalState × List String) :
    (lines.foldl (fun a line => replStep a.1 a.2.1 a.2.2 line) acc).1 = acc.1 := by
  induction lines generalizing acc with
  | nil => rfl
  | cons l ls ih =>
    rw [List.foldl_cons, ih]
    exact replStep_fst _ _ _ _

/-- Claim C10: the REPL session uses a single persistent Environment —
the fold that models `Start`'s read loop always carries the one root
environment created before the loop (reference 0); a line rejected with
parser errors leaves the session's evaluation state unchanged; and in a
concrete session, the binding `x = 5` made before a rejected line is
still visible to a later line, which prints `5`. -/
theorem replSinglePersistentEnvironment :
    (∀ lines : List String, (replRun lines).1 = 0) ∧
    (∀ (env : Nat) (st : EvalState) (outp : List String) (line : String),
      (parse line).2 ≠ [] →
      replStep env st outp line =
        (env, st, outp ++ printParserErrors (parse line).2)) ∧
    (replRun ["let x = 5;", "let x 5;", "x"]).2.2 =
      ["null", "\n"] ++
        printParserErrors ["expected next token to be =, got INT instead"] ++
        ["5", "\n"] := by
  refine ⟨?_, ?_, ?_⟩
  · intro lines
    exact replFold_fst lines _
  · intro env st outp line h
    exact replStepWith_parseError (evalProgram replFuel) env st outp line h
  · rfl

/-- Witness for C10's conditional conjunct at a concrete rejected line. -/
theorem replSinglePersistentEnvironment_witness :
    replStep 0 freshState [] "let x 5;" =
      (0, freshState, [] ++ printParserErrors (parse "let x 5;").2) :=
  replSinglePersistentEnvironment.2.1 0 freshState [] "let x 5;" (by decide)

/-- Appending trace events folds compositionally: prints produced so far
are carried through unchanged in front of the new prints. -/
theorem traceFold_frame (l : List TEvent) (m : Int) (ps : List Int) :
    l.foldl traceStep (m, ps) =
      ((l.foldl traceStep (m, [])).1, ps ++ (l.foldl traceStep (m, [])).2) := by
  induction l generalizing m ps with
  | nil => simp
  | cons e l ih =>
    rw [List.foldl_cons, List.foldl_cons]
    cases e
    · simp only [traceStep, List.nil_append]
      rw [ih (incIdent m) (ps ++ [incIdent m]), ih (incIdent m) [incIdent m]]
      simp
    · simp only [traceStep, List.nil_append]
      rw [ih (decIdent m) (ps ++ [m]), ih (decIdent m) [m]]
      simp

/-- Claim C9: trace instrumentation is balanced and never under-indents —
running any well-nested sequence of trace()/untrace pairs from a
non-negative traceLevel restores that level exactly (each trace()
increments by one before printing BEGIN, each untrace prints END and then
decrements by one), and every indentation computed during the run uses a
non-negative repetition count traceLevel - 1. -/
theorem traceBalancedRestoresLevel :
    ∀ evs : List TEvent, Balanced evs → ∀ lvl : Int, 0 ≤ lvl →
      (runTraceEvents evs lvl).1 = lvl ∧
      ∀ p ∈ (runTraceEvents evs lvl).2, 0 ≤ identLevelCount p := by
  intro evs hb
  induction hb with
  | nil =>
    intro lvl h0
    exact ⟨rfl, by simp [runTraceEvents]⟩
  | @wrap l hl ih =>
    intro lvl h0
    have h1 : 0 ≤ lvl + 1 := by omega
    obtain ⟨ihFst, ihMem⟩ := ih (lvl + 1) h1
    unfold runTraceEvents at *
    rw [List.foldl_append, List.foldl_append]
    simp only [List.foldl_cons, List.foldl_nil, traceStep, incIdent, decIdent,
      List.nil_append]
    rw [traceFold_frame l (lvl + 1) [lvl + 1]]
    rw [ihFst]
    constructor
    · omega
    · intro p hp
      simp only [List.mem_append, List.mem_singleton] at hp
      rcases hp with (hp | hp) | hp
      · subst hp
        simp only [identLevelCount]
        omega
      · exact ihMem p hp
      · subst hp
        simp only [identLevelCount]
        omega
  | @append l₁ l₂ h₁ h₂ ih₁ ih₂ =>
    intro lvl h0
    obtain ⟨ih1Fst, ih1Mem⟩ := ih₁ lvl h0
    obtain ⟨ih2Fst, ih2Mem⟩ := ih₂ lvl h0
    unfold runTraceEvents at *
    rw [List.foldl_append]
    rw [traceFold_frame l₂ (List.foldl traceStep (lvl, []) l₁).1
      (List.foldl traceStep (lvl, []) l₁).2]
    rw [ih1Fst]
    refine ⟨ih2Fst, ?_⟩
    intro p hp
    rw [List.mem_append] at hp
    rcases hp with hp | hp
    · exact ih1Mem p hp
    · exact ih2Mem p hp

/-- Witness for C9: one matched trace/untrace pair from level 0. -/
theorem traceBalancedRestoresLevel_witness :
    (runTraceEvents [.beginEv, .endEv] 0).1 = 0 ∧
    ∀ p ∈ (runTraceEvents [.beginEv, .endEv] 0).2, 0 ≤ identLevelCount p :=
  traceBalancedRestoresLevel [.beginEv, .endEv]
    (Balanced.wrap Balanced.nil) 0 (by decide)

/-- A state transformer whose result value, final store and produced
output are independent of the output already accumulated in the state:
it only ever appends a fixed suffix to the output channel. -/
def OutputIndep {α : Type} (F : EvalState → α × EvalState) : Prop :=
  ∀ store : List Frame, ∃ v S δ, ∀ o : List String, F ⟨store, o⟩ = (v, ⟨S, o ++ δ⟩)

/-- Builtins only append to the output channel; their results do not
depend on the output already accumulated. -/
theorem applyBuiltin_indep (b : BuiltinKind) (args : List Object) :
    OutputIndep (applyBuiltin b args) := by
  intro store
  cases b
  case putsB =>
    exact ⟨.null, store, args.map inspect, fun o => by simp [applyBuiltin]⟩
  case lenB =>
    refine ⟨(applyBuiltin .lenB args ⟨store, []⟩).1, store, [], fun o => ?_⟩
    simp only [applyBuiltin]
    split <;> simp
  case firstB =>
    refine ⟨(applyBuiltin .firstB args ⟨store, []⟩).1, store, [], fun o => ?_⟩
    simp only [applyBuiltin]
    split <;> simp
  case lastB =>
    refine ⟨(applyBuiltin .lastB args ⟨store, []⟩).1, store, [], fun o => ?_⟩
    simp only [applyBuiltin]
    split <;> simp
  case restB =>
    refine ⟨(applyBuiltin .restB args ⟨store, []⟩).1, store, [], fun o => ?_⟩
    simp only [applyBuiltin]
    split <;> simp
  case pushB =>
    refine ⟨(applyBuiltin .pushB args ⟨store, []⟩).1, store, [], fun o => ?_⟩
    simp only [applyBuiltin]
    split <;> simp

/-- The evaluator's result value, final store and produced output depend
only on the node, the environment and the store — never on the output
already accumulated in the state, to which evaluation only appends. -/
theorem evalOutputIndep : ∀ fuel : Nat,
    (∀ e env, OutputIndep (evalExpr fuel e env)) ∧
    (∀ es env, OutputIndep (evalExprList fuel es env)) ∧
    (∀ ps env acc, OutputIndep (evalHashPairs fuel ps env acc)) ∧
    (∀ f args, OutputIndep (applyFunction fuel f args)) ∧
    (∀ s env, OutputIndep (evalStmt fuel s env)) ∧
    (∀ ss env, OutputIndep (evalBlock fuel ss env)) := by
  intro fuel
  induction fuel with
  | zero =>
    refine
      ⟨fun e env store => ⟨.errorSignal "evaluation fuel exhausted", store, [],
        fun o => by simp [evalExpr]⟩,
      fun es env store => ⟨.inl (.errorSignal "evaluation fuel exhausted"), store,
        [], fun o => by simp [evalExprList]⟩,
      fun ps env acc store => ⟨.inl (.errorSignal "evaluation fuel exhausted"),
        store, [], fun o => by simp [evalHashPairs]⟩,
      fun f args store => ⟨.errorSignal "evaluation fuel exhausted", store, [],
        fun o => by simp [applyFunction]⟩,
      fun s env store => ⟨.errorSignal "evaluation fuel exhausted", store, [],
        fun o => by simp [evalStmt]⟩,
      fun ss env store => ⟨.errorSignal "evaluation fuel exhausted", store, [],
        fun o => by simp [evalBlock]⟩⟩
  | succ fuel ih =>
    obtain ⟨ihE, ihL, ihH, ihA, ihS, ihB⟩ := ih
    refine ⟨?_, ?_, ?_, ?_, ?_, ?_⟩
    · -- evalExpr
      intro e env store
      cases e with
      | ident n =>
        rcases h : envGet store env n with _ | v
        · rcases hb : builtinFor n with _ | b
          · exact ⟨.errorSignal ("identifier not found: " ++ n), store, [],
              fun o => by simp [evalExpr, h, hb]⟩
          · exact ⟨.builtin b, store, [], fun o => by simp [evalExpr, h, hb]⟩
        · exact ⟨v, store, [], fun o => by simp [evalExpr, h]⟩
      | intLit v => exact ⟨.integer v, store, [], fun o => by simp [evalExpr]⟩
      | boolLit b => exact ⟨.boolean b, store, [], fun o => by simp [evalExpr]⟩
      | strLit s => exact ⟨.str s, store, [], fun o => by simp [evalExpr]⟩
      | prefixExpr op r =>
        obtain ⟨rv, S1, δ1, h1⟩ := ihE r env store
        cases hs : isSignal rv with
        | true => exact ⟨rv, S1, δ1, fun o => by simp [evalExpr, h1 o, hs]⟩
        | false =>
          exact ⟨evalPrefixOperation op rv, S1, δ1,
            fun o => by simp [evalExpr, h1 o, hs]⟩
      | infixExpr l op r =>
        obtain ⟨lv, S1, δ1, h1⟩ := ihE l env store
        cases hsl : isSignal lv with
        | true => exact ⟨lv, S1, δ1, fun o => by simp [evalExpr, h1 o, hsl]⟩
        | false =>
          obtain ⟨rv, S2, δ2, h2⟩ := ihE r env S1
          cases hsr : isSignal rv with
          | true =>
            exact ⟨rv, S2, δ1 ++ δ2, fun o => by
              simp [evalExpr, h1 o, hsl, h2 (o ++ δ1), hsr, List.append_assoc]⟩
          | false =>
            exact ⟨evalInfixOperation op lv rv, S2, δ1 ++ δ2, fun o => by
              simp [evalExpr, h1 o, hsl, h2 (o ++ δ1), hsr, List.append_assoc]⟩
      | ifExpr c conseq alt =>
        obtain ⟨cv, S1, δ1, h1⟩ := ihE c env store
        cases hs : isSignal cv with
        | true => exact ⟨cv, S1, δ1, fun o => by simp [evalExpr, h1 o, hs]⟩
        | false =>
          cases ht : truthy cv with
          | true =>
            obtain ⟨bv, S2, δ2, h2⟩ := ihB conseq env S1
            exact ⟨bv, S2, δ1 ++ δ2, fun o => by
              simp [evalExpr, h1 o, hs, ht, h2 (o ++ δ1), List.append_assoc]⟩
          | false =>
            rcases alt with _ | a
            · exact ⟨.null, S1, δ1, fun o => by simp [evalExpr, h1 o, hs, ht]⟩
            · obtain ⟨bv, S2, δ2, h2⟩ := ihB a env S1
              exact ⟨bv, S2, δ1 ++ δ2, fun o => by
                simp [evalExpr, h1 o, hs, ht, h2 (o ++ δ1), List.append_assoc]⟩
      | funcLit ps body =>
        exact ⟨.function ps body env, store, [], fun o => by simp [evalExpr]⟩
      | callExpr f args =>
        obtain ⟨fv, S1, δ1, h1⟩ := ihE f env store
        cases hs : isSignal fv with
        | true => exact ⟨fv, S1, δ1, fun o => by simp [evalExpr, h1 o, hs]⟩
        | false =>
          obtain ⟨r2, S2, δ2, h2⟩ := ihL args env S1
          rcases r2 with sig | vs
          · exact ⟨sig, S2, δ1 ++ δ2, fun o => by
              simp [evalExpr, h1 o, hs, h2 (o ++ δ1), List.append_assoc]⟩
          · obtain ⟨rv, S3, δ3, h3⟩ := ihA fv vs S2
            exact ⟨rv, S3, δ1 ++ δ2 ++ δ3, fun o => by
              simp [evalExpr, h1 o, hs, h2 (o ++ δ1), h3 (o ++ (δ1 ++ δ2)),
                List.append_assoc]⟩
      | arrayLit es =>
        obtain ⟨r, S1, δ1, h1⟩ := ihL es env store
        rcases r with sig | vs
        · exact ⟨sig, S1, δ1, fun o => by simp [evalExpr, h1 o]⟩
        · exact ⟨.array vs, S1, δ1, fun o => by simp [evalExpr, h1 o]⟩
      | indexExpr l i =>
        obtain ⟨lv, S1, δ1, h1⟩ := ihE l env store
        cases hsl : isSignal lv with
        | true => exact ⟨lv, S1, δ1, fun o => by simp [evalExpr, h1 o, hsl]⟩
        | false =>
          obtain ⟨iv, S2, δ2, h2⟩ := ihE i env S1
          cases hsi : isSignal iv with
          | true =>
            exact ⟨iv, S2, δ1 ++ δ2, fun o => by
              simp [evalExpr, h1 o, hsl, h2 (o ++ δ1), hsi, List.append_assoc]⟩
          | false =>
            exact ⟨evalIndexOperation lv iv, S2, δ1 ++ δ2, fun o => by
              simp [evalExpr, h1 o, hsl, h2 (o ++ δ1), hsi, List.append_assoc]⟩
      | hashLit ps =>
        obtain ⟨r, S1, δ1, h1⟩ := ihH ps env [] store
        rcases r with sig | hps
        · exact ⟨sig, S1, δ1, fun o => by simp [evalExpr, h1 o]⟩
        · exact ⟨.hash hps, S1, δ1, fun o => by simp [evalExpr, h1 o]⟩
    · -- evalExprList
      intro es env store
      cases es with
      | nil => exact ⟨.inr [], store, [], fun o => by simp [evalExprList]⟩
      | cons e es =>
        obtain ⟨v, S1, δ1, h1⟩ := ihE e env store
        cases hs : isSignal v with
        | true => exact ⟨.inl v, S1, δ1, fun o => by simp [evalExprList, h1 o, hs]⟩
        | false =>
          obtain ⟨r, S2, δ2, h2⟩ := ihL es env S1
          rcases r with sig | vs
          · exact ⟨.inl sig, S2, δ1 ++ δ2, fun o => by
              simp [evalExprList, h1 o, hs, h2 (o ++ δ1), List.append_assoc]⟩
          · exact ⟨.inr (v :: vs), S2, δ1 ++ δ2, fun o => by
              simp [evalExprList, h1 o, hs, h2 (o ++ δ1), List.append_assoc]⟩
    · -- evalHashPairs
      intro ps env acc store
      cases ps with
      | nil => exact ⟨.inr acc, store, [], fun o => by simp [evalHashPairs]⟩
      | cons kv ps =>
        rcases kv with ⟨ke, ve⟩
        obtain ⟨kv, S1, δ1, h1⟩ := ihE ke env store
        cases hsk : isSignal kv with
        | true => exact ⟨.inl kv, S1, δ1, fun o => by simp [evalHashPairs, h1 o, hsk]⟩
        | false =>
          rcases hk : hashKeyOf kv with _ | hkk
          · exact ⟨.inl (.errorSignal ("unusable as hash key: " ++ kv.typeName)),
              S1, δ1, fun o => by simp [evalHashPairs, h1 o, hsk, hk]⟩
          · obtain ⟨vv, S2, δ2, h2⟩ := ihE ve env S1
            cases hsv : isSignal vv with
            | true =>
              exact ⟨.inl vv, S2, δ1 ++ δ2, fun o => by
                simp [evalHashPairs, h1 o, hsk, hk, h2 (o ++ δ1), hsv,
                  List.append_assoc]⟩
            | false =>
              obtain ⟨r, S3, δ3, h3⟩ := ihH ps env (hashInsert acc hkk kv vv) S2
              exact ⟨r, S3, δ1 ++ δ2 ++ δ3, fun o => by
                simp [evalHashPairs, h1 o, hsk, hk, h2 (o ++ δ1), hsv,
                  h3 (o ++ (δ1 ++ δ2)), List.append_assoc]⟩
    · -- applyFunction
      intro f args store
      cases f with
      | function ps body fenv =>
        by_cases hl : ps.length = args.length
        · obtain ⟨bv, S2, δ2, h2⟩ :=
            ihB body store.length (store ++ [⟨ps.zip args, some fenv⟩])
          exact ⟨unwrapReturn bv, S2, δ2, fun o => by
            simp [applyFunction, hl, h2 o]⟩
        · exact ⟨.errorSignal "wrong number of arguments", store, [],
            fun o => by simp [applyFunction, hl]⟩
      | builtin b =>
        obtain ⟨v, S, δ, h⟩ := applyBuiltin_indep b args store
        exact ⟨v, S, δ, fun o => by simp [applyFunction, h o]⟩
      | integer i =>
        exact ⟨.errorSignal ("not a function: " ++ (Object.integer i).typeName),
          store, [], fun o => by simp [applyFunction]⟩
      | boolean b =>
        exact ⟨.errorSignal ("not a function: " ++ (Object.boolean b).typeName),
          store, [], fun o => by simp [applyFunction]⟩
      | str s =>
        exact ⟨.errorSignal ("not a function: " ++ (Object.str s).typeName),
          store, [], fun o => by simp [applyFunction]⟩
      | null =>
        exact ⟨.errorSignal ("not a function: " ++ Object.null.typeName),
          store, [], fun o => by simp [applyFunction]⟩
      | array es =>
        exact ⟨.errorSignal ("not a function: " ++ (Object.array es).typeName),
          store, [], fun o => by simp [applyFunction]⟩
      | hash hps =>
        exact ⟨.errorSignal ("not a function: " ++ (Object.hash hps).typeName),
          store, [], fun o => by simp [applyFunction]⟩
      | returnSignal ro =>
        exact ⟨.errorSignal ("not a function: " ++ ro.returnSignal.typeName),
          store, [], fun o => by simp [applyFunction]⟩
      | errorSignal m =>
        exact ⟨.errorSignal ("not a function: " ++ (Object.errorSignal m).typeName),
          store, [], fun o => by simp [applyFunction]⟩
    · -- evalStmt
      intro s env store
      cases s with
      | letStmt n v =>
        obtain ⟨val, S1, δ1, h1⟩ := ihE v env store
        cases hs : isSignal val with
        | true => exact ⟨val, S1, δ1, fun o => by simp [evalStmt, h1 o, hs]⟩
        | false =>
          exact ⟨.null, envSet S1 env n val, δ1, fun o => by
            simp [evalStmt, h1 o, hs]⟩
      | returnStmt v =>
        obtain ⟨val, S1, δ1, h1⟩ := ihE v env store
        cases hs : isSignal val with
        | true => exact ⟨val, S1, δ1, fun o => by simp [evalStmt, h1 o, hs]⟩
        | false =>
          exact ⟨.returnSignal val, S1, δ1, fun o => by simp [evalStmt, h1 o, hs]⟩
      | exprStmt e =>
        obtain ⟨v, S, δ, h⟩ := ihE e env store
        exact ⟨v, S, δ, fun o => by simp [evalStmt, h o]⟩
    · -- evalBlock
      intro ss env store
      cases ss with
      | nil => exact ⟨.null, store, [], fun o => by simp [evalBlock]⟩
      | cons s ss =>
        obtain ⟨v, S1, δ1, h1⟩ := ihS s env store
        cases hs : isSignal v with
        | true => exact ⟨v, S1, δ1, fun o => by simp [evalBlock, h1 o, hs]⟩
        | false =>
          cases ss with
          | nil => exact ⟨v, S1, δ1, fun o => by simp [evalBlock, h1 o, hs]⟩
          | cons s2 ss2 =>
            obtain ⟨v2, S2, δ2, h2⟩ := ihB (s2 :: ss2) env S1
            exact ⟨v2, S2, δ1 ++ δ2, fun o => by
              simp [evalBlock, h1 o, hs, h2 (o ++ δ1), List.append_assoc]⟩

/-- Claim C7: evaluation is deterministic across runs — evaluating the
same immutable AST twice, each time against a fresh empty root
Environment, yields identical result Objects and identical final stores;
no hidden state carries over between runs (the only session state, the
accumulated output channel, never influences a result). -/
theorem evalIdempotentAcrossRuns :
    ∀ (fuel : Nat) (prog : Program) (o₁ o₂ : List String),
      (evalProgram fuel prog 0 ⟨newEnvironmentStore, o₁⟩).1 =
        (evalProgram fuel prog 0 ⟨newEnvironmentStore, o₂⟩).1 ∧
      (evalProgram fuel prog 0 ⟨newEnvironmentStore, o₁⟩).2.store =
        (evalProgram fuel prog 0 ⟨newEnvironmentStore, o₂⟩).2.store := by
  intro fuel prog o₁ o₂
  obtain ⟨v, S, δ, h⟩ := (evalOutputIndep fuel).2.2.2.2.2 prog 0 newEnvironmentStore
  unfold evalProgram
  rw [h o₁, h o₂]
  exact ⟨rfl, rfl⟩

end Monkey
